import Mathlib

/-!
Verification development for the aurora-os preemptive scheduling subsystem.

Shallow embedding of the kernel's thread/scheduler code
(`kernel/src/process.rs`), the timer context-switch stub
(`kernel/src/interrupts.rs`), the page-mapping helper
(`kernel/src/memory.rs`), the GDT selector accessors (`kernel/src/gdt.rs`)
and the scancode queue (`kernel/src/task/keyboard.rs`).

Machine integers are modelled as `Nat` (all address arithmetic in the
claims stays far below 2^64, so no wrap-around is reachable); fallible
code returns `Except`/`Option`; a Rust panic is modelled as `none`.
-/

namespace AuroraOS

/-! ## Constants from `kernel/src/process.rs` -/

def KERNEL_STACK_SIZE : Nat := 4096 * 2

def USER_STACK_SIZE : Nat := 4096 * 5

/-- Size `40 + 120` bytes, as in the source. -/
def INTERRUPT_CONTEXT_SIZE : Nat := 40 + 120

def USER_CODE_START : Nat := 0x5000000

def USER_CODE_END : Nat := 0x80000000

def USER_STACK_START : Nat := 0x5002000

/-! ## Segment selectors from `kernel/src/gdt.rs`

The GDT is built as: null (index 0), kernel code (index 1), kernel data
(index 2), TSS (a 16-byte descriptor occupying indices 3 and 4), user code
(index 5), user data (index 6).  A selector value is `index * 8 + RPL`,
with RPL 0 for the kernel descriptors and 3 for the user descriptors. -/

def get_kernel_segments : Nat × Nat := (0x08, 0x10)

def get_user_segments : Nat × Nat := (0x2b, 0x33)

/-- Index of the timer slot in the TSS interrupt stack table
(`gdt::TIMER_INTERRUPT_INDEX`). -/
def TIMER_INTERRUPT_INDEX : Nat := 1

/-! ## The saved register context (`struct Context`, process.rs lines 11-41)

`#[repr(packed)]`, so the fields sit at consecutive ascending 8-byte
offsets in declaration order: r15 at offset 0 through rax at offset 112,
then the CPU-pushed interrupt frame rip, cs, rflags, rsp, ss
(offsets 120..152).  Total size 160 = INTERRUPT_CONTEXT_SIZE bytes. -/

structure Context where
  r15 : Nat
  r14 : Nat
  r13 : Nat
  r12 : Nat
  r11 : Nat
  r10 : Nat
  r9 : Nat
  r8 : Nat
  rbp : Nat
  rsi : Nat
  rdi : Nat
  rdx : Nat
  rcx : Nat
  rbx : Nat
  rax : Nat
  rip : Nat
  cs : Nat
  rflags : Nat
  rsp : Nat
  ss : Nat
  deriving Repr, DecidableEq

/-- The 20 words of a `Context`, in ascending address order as laid out by
`#[repr(packed)]` (field declaration order). -/
def Context.words (c : Context) : List Nat :=
  [c.r15, c.r14, c.r13, c.r12, c.r11, c.r10, c.r9, c.r8,
   c.rbp, c.rsi, c.rdi, c.rdx, c.rcx, c.rbx, c.rax,
   c.rip, c.cs, c.rflags, c.rsp, c.ss]

/-! ## Thread records and the scheduler (`process.rs`)

The Rust `Thread` owns two heap `Vec<u8>` stacks; only their end addresses
and the saved-context address participate in the scheduler logic, so the
embedding keeps those.  `tid` is a ghost field (absent from the source):
the creation index, used to speak about thread identity. -/

structure Thread where
  tid : Nat
  kernel_stack_end : Nat
  user_stack_end : Nat
  context : Nat
  deriving Repr, DecidableEq

/-- The scheduler's shared state: `RUNNING_QUEUE` (a `VecDeque`, front =
head of the list), `CURRENT_THREAD`, and the TSS timer-slot stack binding
written through `gdt::set_interrupt_stack_table`. -/
structure SchedState where
  running_queue : List Thread
  current_thread : Option Thread
  ist_timer : Nat
  deriving Repr, DecidableEq

/-- Embeds `schedule_next` (process.rs lines 43-66).  Returns the next context
address (0 = no switch) and the updated scheduler state. -/
def schedule_next (context_addr : Nat) (s : SchedState) : Nat × SchedState :=
  let q :=
    match s.current_thread with
    | some thread => s.running_queue ++ [{ thread with context := context_addr }]
    | none => s.running_queue
  match q with
  | [] => (0, { s with running_queue := [], current_thread := none })
  | thread :: rest =>
      (thread.context,
       { running_queue := rest,
         current_thread := some thread,
         ist_timer := thread.kernel_stack_end })

/-- Result of `new_kernel_thread`: the `Thread` record and the `Context`
it wrote at `kernel_stack_end - INTERRUPT_CONTEXT_SIZE`. -/
structure KThreadResult where
  thread : Thread
  ctx : Context
  deriving Repr, DecidableEq

/-- Embeds `new_kernel_thread` (process.rs lines 185-216).  `kstack_addr` and
`ustack_addr` stand for the heap addresses returned by the two
`Vec::with_capacity` allocations; `g` is the uninitialized memory the
`Context` overlays (only rip, rsp, rflags, cs, ss are written); `tid` is
the ghost creation index. -/
def new_kernel_thread (function : Nat) (kstack_addr ustack_addr : Nat)
    (g : Context) (tid : Nat) : KThreadResult :=
  let kernel_stack_end := kstack_addr + KERNEL_STACK_SIZE
  let user_stack_end := ustack_addr + USER_STACK_SIZE
  let context := kernel_stack_end - INTERRUPT_CONTEXT_SIZE
  { thread := { tid := tid, kernel_stack_end := kernel_stack_end,
                user_stack_end := user_stack_end, context := context },
    ctx := { g with
             rip := function,
             rsp := user_stack_end,
             rflags := 0x200,
             cs := get_kernel_segments.1,
             ss := get_kernel_segments.2 } }

/-! ## Physical memory and paging (`kernel/src/memory.rs`)

`BootInfoFrameAllocator` hands out the `next`-th usable frame and bumps
the cursor (even when the iterator is exhausted).  `Mapper::map_to` is
modelled as recording a (page, frame) pair and failing on an
already-mapped page; allocation of intermediate page-table frames inside
`map_to` (done by the x86_64 crate, outside this repository) is not
modelled. -/

inductive MapToError where
  | FrameAllocationFailed
  | PageAlreadyMapped
  deriving Repr, DecidableEq

/-- Address space + frame-allocator state: the usable-frame list derived
from the firmware memory map, the allocator cursor, and the created
(page index, frame) mappings. -/
structure MemState where
  usable : List Nat
  next : Nat
  mapped : List (Nat × Nat)
  deriving Repr, DecidableEq

/-- Embeds `BootInfoFrameAllocator::allocate_frame` (memory.rs lines 107-113):
`self.usable_frames().nth(self.next)`, then `self.next += 1`
unconditionally. -/
def allocate_frame (st : MemState) : Option Nat × MemState :=
  (st.usable.get? st.next, { st with next := st.next + 1 })

/-- Embeds `Mapper::map_to` for one 4 KiB page: fails if the page is already
mapped, otherwise records the mapping. -/
def map_to (st : MemState) (page frame : Nat) : Except MapToError MemState :=
  if page ∈ st.mapped.map Prod.fst then
    .error .PageAlreadyMapped
  else
    .ok { st with mapped := st.mapped ++ [(page, frame)] }

/-- Embeds `Page::containing_address` for 4 KiB pages. -/
def pageContaining (addr : Nat) : Nat := addr / 4096

/-- The body of the loop in `allocate_pages_mapper`, iterating over
`Page::range_inclusive(start_page, end_page)` (`n` pages starting at
`page`): allocate a frame (error out if none), map it (propagate the
error via `?`), continue. -/
def allocate_pages_loop : Nat → Nat → MemState → Except MapToError Unit × MemState
  | 0, _, st => (.ok (), st)
  | n + 1, page, st =>
      match allocate_frame st with
      | (none, st') => (.error .FrameAllocationFailed, st')
      | (some frame, st') =>
          match map_to st' page frame with
          | .error e => (.error e, st')
          | .ok st'' => allocate_pages_loop n (page + 1) st''

/-- Embeds `allocate_pages_mapper` (memory.rs lines 140-164): maps the inclusive
page range covering `[start_addr, start_addr + size)`. -/
def allocate_pages_mapper (st : MemState) (start_addr size : Nat) :
    Except MapToError Unit × MemState :=
  let end_addr := start_addr + size - 1
  let start_page := pageContaining start_addr
  let end_page := pageContaining end_addr
  allocate_pages_loop (end_page + 1 - start_page) start_page st

/-! ## ELF loading and user threads (`process.rs` lines 91-183)

ELF parsing is done by the external `object` crate; the embedding takes
the parse result (`Option ElfFile`, `none` = `object::File::parse`
failed) as an oracle parameter alongside the raw bytes (which the
function slices for the magic check before parsing). -/

/-- A loadable segment as seen through `object::ObjectSegment`. -/
structure Segment where
  address : Nat
  size : Nat
  deriving Repr, DecidableEq

/-- The parsed view of an ELF image: entry point and loadable segments,
in file order. -/
structure ElfFile where
  entry : Nat
  segments : List Segment
  deriving Repr, DecidableEq

def ELF_MAGIC : List Nat := [0x7f, 0x45, 0x4c, 0x46]

/-- The per-segment loop of `new_user_thread` (process.rs lines 103-137):
range-check each loadable segment against the user-code window, then map
pages for it.  The byte copy from the file into the freshly mapped pages
(lines 127-136) affects only page contents, which no tracked state
observes, and cannot fail, so it is not modelled. -/
def mapSegments : List Segment → MemState → Except String Unit × MemState
  | [], st => (.ok (), st)
  | seg :: rest, st =>
      let start_address := seg.address
      let end_address := start_address + seg.size
      if start_address < USER_CODE_START ∨ USER_CODE_END ≤ end_address then
        (.error "ELF segment outside allowed range", st)
      else
        match allocate_pages_mapper st seg.address seg.size with
        | (.error _, st') => (.error "Could not allocate memory", st')
        | (.ok _, st') => mapSegments rest st'

/-- What one `new_user_thread` call produced: the returned
`Result<usize, &str>`, the memory state after all side effects, and the
thread pushed onto `RUNNING_QUEUE` (with the `Context` written for it),
if any. -/
structure UserThreadOutcome where
  result : Except String Nat
  mem : MemState
  enqueued : Option (Thread × Context)
  deriving Repr

/-- Embeds `new_user_thread` (process.rs lines 91-183).  Returns `none` when the
Rust code panics: the magic check slices `bin[0..4]` without a length
guard, so a buffer shorter than 4 bytes panics before anything else runs.
Note that the result of the user-stack `allocate_pages_mapper` call
(lines 161-168) is discarded by the source, so its failure does not
affect the returned `Result` — only the memory state. -/
def new_user_thread (bin : List Nat) (parsed : Option ElfFile)
    (st : MemState) (kstack_addr ustack_addr : Nat) (g : Context)
    (tid : Nat) : Option UserThreadOutcome :=
  if bin.length < 4 then
    none
  else if bin.take 4 ≠ ELF_MAGIC then
    some { result := .error "Expected ELF binary", mem := st, enqueued := none }
  else
    match parsed with
    | none => some { result := .error "Could not parse ELF", mem := st, enqueued := none }
    | some obj =>
        let entry_point := obj.entry
        match mapSegments obj.segments st with
        | (.error e, st') =>
            some { result := .error e, mem := st', enqueued := none }
        | (.ok _, st') =>
            let kernel_stack_end := kstack_addr + KERNEL_STACK_SIZE
            let user_stack_end := ustack_addr + USER_STACK_SIZE
            let context_addr := kernel_stack_end - INTERRUPT_CONTEXT_SIZE
            let thread : Thread :=
              { tid := tid, kernel_stack_end := kernel_stack_end,
                user_stack_end := user_stack_end, context := context_addr }
            -- The source drops this call's `Result` on the floor: only the
            -- state effects survive, the error (if any) is never checked.
            let st'' := (allocate_pages_mapper st' USER_STACK_START USER_STACK_SIZE).2
            let ctx : Context :=
              { g with
                rip := entry_point,
                rsp := USER_STACK_START + USER_STACK_SIZE,
                rflags := 0x200,
                cs := get_user_segments.1,
                ss := get_user_segments.2 }
            some { result := .ok entry_point, mem := st'',
                   enqueued := some (thread, ctx) }

/-! ## Whole-kernel operation traces

The three operations the claims interleave: `new_kernel_thread`,
`new_user_thread`, and the timer-driven `schedule_next`.  The ghost
`next_tid` counter assigns each successfully created thread its creation
index; since the design has no teardown path, the live threads are
exactly the tids below `next_tid`. -/

structure KernelState where
  sched : SchedState
  mem : MemState
  next_tid : Nat
  deriving Repr

inductive Op where
  | createKernel (function kstack_addr ustack_addr : Nat) (g : Context)
  | createUser (bin : List Nat) (parsed : Option ElfFile)
      (kstack_addr ustack_addr : Nat) (g : Context)
  | timer (context_addr : Nat)

/-- One operation.  `new_kernel_thread` and the success path of
`new_user_thread` push the new thread to the back of `RUNNING_QUEUE`
(inside `without_interrupts`); a panicking `new_user_thread` call halts
the machine, modelled as leaving the state unchanged. -/
def step (s : KernelState) (op : Op) : KernelState :=
  match op with
  | .createKernel f k u g =>
      let r := new_kernel_thread f k u g s.next_tid
      { s with
        sched := { s.sched with running_queue := s.sched.running_queue ++ [r.thread] },
        next_tid := s.next_tid + 1 }
  | .createUser bin parsed k u g =>
      match new_user_thread bin parsed s.mem k u g s.next_tid with
      | none => s
      | some out =>
          match out.enqueued with
          | some (t, _) =>
              { sched := { s.sched with running_queue := s.sched.running_queue ++ [t] },
                mem := out.mem,
                next_tid := s.next_tid + 1 }
          | none => { s with mem := out.mem }
  | .timer addr => { s with sched := (schedule_next addr s.sched).2 }

def run (ops : List Op) (s : KernelState) : KernelState := ops.foldl step s

/-- Boot state: empty ready queue, no current thread, `mem` is the
firmware-derived frame supply. -/
def initState (mem : MemState) : KernelState :=
  { sched := { running_queue := [], current_thread := none, ist_timer := 0 },
    mem := mem,
    next_tid := 0 }

/-- Fire a timer interrupt per listed saved-context address and record,
after each, which thread occupies the Current-Thread slot (by tid). -/
def observeTimers : KernelState → List Nat → List (Option Nat)
  | _, [] => []
  | s, a :: rest =>
      let s' := step s (.timer a)
      (s'.sched.current_thread.map Thread.tid) :: observeTimers s' rest

/-- The tids placed in the scheduler's two containers: Ready Queue then
Current-Thread slot. -/
def placedTids (s : KernelState) : List Nat :=
  s.sched.running_queue.map Thread.tid ++
    (s.sched.current_thread.map Thread.tid).toList

/-! ## The timer context-switch stub (`interrupts.rs` lines 290-356)

The naked handler pushes the fifteen general-purpose registers in a fixed
order onto the interrupted stack (below the five-word frame the CPU
pushed), calls `timer_handler` with `rsp` as argument, optionally switches
`rsp` to the returned address, pops the fifteen registers, and `iretq`
restores rip, cs, rflags, rsp, ss from the remaining five words. -/

inductive GPReg where
  | rax | rbx | rcx | rdx | rdi | rsi | rbp
  | r8 | r9 | r10 | r11 | r12 | r13 | r14 | r15
  deriving Repr, DecidableEq

/-- The `push` sequence of the stub, in execution order
(interrupts.rs lines 298-315). -/
def pushOrder : List GPReg :=
  [.rax, .rbx, .rcx, .rdx, .rdi, .rsi, .rbp, .r8,
   .r9, .r10, .r11, .r12, .r13, .r14, .r15]

/-- The `pop` sequence of the stub, in execution order
(interrupts.rs lines 328-345). -/
def popOrder : List GPReg :=
  [.r15, .r14, .r13, .r12, .r11, .r10, .r9, .r8,
   .rbp, .rsi, .rdi, .rdx, .rcx, .rbx, .rax]

/-- Memory content (ascending addresses from the final stack pointer)
after the stub's pushes run over CPU registers `rf`, with `frame` the
five CPU-pushed interrupt-frame words already above: each `push` stores
at a lower address, so the words read back in reverse push order. -/
def stubSave (rf : GPReg → Nat) (frame : List Nat) : List Nat :=
  (pushOrder.map rf).reverse ++ frame

/-- Execute a list of `pop`s against a word list (ascending addresses
from the stack pointer): each pop consumes one word into its register.
`none` when the stack runs dry. -/
def runPops : List GPReg → List Nat → (GPReg → Nat) →
    Option ((GPReg → Nat) × List Nat)
  | [], ws, rf => some (rf, ws)
  | _ :: _, [], _ => none
  | r :: rs, w :: ws, rf =>
      runPops rs ws (fun x => if x = r then w else rf x)

/-- The CPU register state after the stub's pop sequence and `iretq`. -/
structure CPUState where
  gp : GPReg → Nat
  rip : Nat
  cs : Nat
  rflags : Nat
  rsp : Nat
  ss : Nat

/-- The stub's restore path: fifteen pops in `popOrder`, then `iretq`
consumes exactly five words as rip, cs, rflags, rsp, ss.  `none` models
the undefined behaviour of running it over a block of the wrong shape. -/
def stubRestore (ws : List Nat) : Option CPUState :=
  match runPops popOrder ws (fun _ => 0) with
  | none => none
  | some (rf, rest) =>
      match rest with
      | [rip, cs, rflags, rsp, ss] =>
          some { gp := rf, rip := rip, cs := cs, rflags := rflags,
                 rsp := rsp, ss := ss }
      | _ => none

/-! ## The scancode queue (`kernel/src/task/keyboard.rs`) -/

/-- Capacity `ArrayQueue::new(100)` from `ScancodeStream::new`. -/
def SCANCODE_CAPACITY : Nat := 100

/-- State of `SCANCODE_QUEUE` (`none` = `OnceCell` uninitialized) plus counters
for the two `kprintln!` warnings and the `WAKER.wake()` calls. -/
structure KbdState where
  queue : Option (List Nat)
  dropped_warnings : Nat
  uninit_warnings : Nat
  wakes : Nat
  deriving Repr

/-- State after `ScancodeStream::new` ran once: an empty queue of
capacity 100. -/
def kbdInit : KbdState :=
  { queue := some [], dropped_warnings := 0, uninit_warnings := 0, wakes := 0 }

/-- Embeds `add_scancode` (keyboard.rs lines 51-61): push to the queue;
`ArrayQueue::push` fails exactly when the queue is full, in which case a
dropped-input warning is printed; on success the waker is woken. -/
def add_scancode (scancode : Nat) (s : KbdState) : KbdState :=
  match s.queue with
  | some q =>
      if SCANCODE_CAPACITY ≤ q.length then
        { s with dropped_warnings := s.dropped_warnings + 1 }
      else
        { s with queue := some (q ++ [scancode]), wakes := s.wakes + 1 }
  | none => { s with uninit_warnings := s.uninit_warnings + 1 }

def runScancodes (bs : List Nat) (s : KbdState) : KbdState :=
  bs.foldl (fun s b => add_scancode b s) s

/-- An all-zero `Context`, standing in for concrete garbage memory in
concrete evaluations. -/
def ctxZero : Context :=
  ⟨0, 0, 0, 0, 0, 0, 0, 0, 0, 0, 0, 0, 0, 0, 0, 0, 0, 0, 0, 0⟩

/-- Translate a general-purpose register name to the corresponding
`Context` field. -/
def Context.gpField (c : Context) : GPReg → Nat
  | .rax => c.rax
  | .rbx => c.rbx
  | .rcx => c.rcx
  | .rdx => c.rdx
  | .rdi => c.rdi
  | .rsi => c.rsi
  | .rbp => c.rbp
  | .r8 => c.r8
  | .r9 => c.r9
  | .r10 => c.r10
  | .r11 => c.r11
  | .r12 => c.r12
  | .r13 => c.r13
  | .r14 => c.r14
  | .r15 => c.r15

/-! # Theorems -/

/-- C7: calling `schedule_next` when the Ready Queue is empty (and hence
no thread is current — with a current thread the push in step (a) would
refill the queue before the pop) returns the sentinel 0, meaning "no
switch", leaves the scheduler state unchanged, and does not crash (the
embedding is a total function). -/
theorem schedule_next_empty_returns_zero (s : SchedState) (addr : Nat)
    (hq : s.running_queue = []) (hc : s.current_thread = none) :
    schedule_next addr s = (0, s) := by
  obtain ⟨q, c, ist⟩ := s
  simp only at hq hc
  subst hq
  subst hc
  rfl

/-- Witness for C7 at a concrete state. -/
theorem schedule_next_empty_returns_zero_witness :
    schedule_next 5 ⟨[], none, 0⟩ = (0, ⟨[], none, 0⟩) :=
  schedule_next_empty_returns_zero ⟨[], none, 0⟩ 5 rfl rfl

/-- C1: strict round-robin.  First conjunct: `schedule_next` always
selects the head of the FIFO Ready Queue (after the running thread, if
any, is stamped and pushed to the back), i.e. the thread that has been
Ready longest.  Second conjunct: creating three kernel threads A, B, C
(tids 0, 1, 2) in an initially empty scheduler and firing four timer
interrupts runs them in the cyclic order A, B, C, A. -/
theorem round_robin_fifo_order :
    (∀ (s : SchedState) (addr : Nat),
      ((schedule_next addr s).2).current_thread =
        (s.running_queue ++
          (match s.current_thread with
           | some t => [{ t with context := addr }]
           | none => [])).head?) ∧
    (∀ (fa fb fc ka ua kb ub kc uc : Nat) (g1 g2 g3 : Context)
       (a1 a2 a3 a4 : Nat) (mem : MemState),
      observeTimers
        (run [.createKernel fa ka ua g1, .createKernel fb kb ub g2,
              .createKernel fc kc uc g3] (initState mem))
        [a1, a2, a3, a4] = [some 0, some 1, some 2, some 0]) := by
  constructor
  · intro s addr
    cases hc : s.current_thread <;> cases hq : s.running_queue <;>
      simp [schedule_next, hc, hq]
  · intro fa fb fc ka ua kb ub kc uc g1 g2 g3 a1 a2 a3 a4 mem
    rfl

/-- C2: the saved-context layout is bit-exact with the stub's push/pop
protocol.  (1) the stub's pop sequence is the exact reverse of its push
sequence; (2) the packed `Context` layout written by thread creation is
exactly what the push sequence produces over the corresponding register
values; (3) feeding the `Context` written by `new_kernel_thread` through
the stub's restore path (fifteen pops then `iretq`) reconstructs exactly
the instruction pointer, stack pointer, flags and code/stack selectors
that creation wrote, and hands every general-purpose register the word
creation left in its slot. -/
theorem context_roundtrip_with_stub :
    popOrder = pushOrder.reverse ∧
    (∀ c : Context,
      Context.words c = stubSave c.gpField [c.rip, c.cs, c.rflags, c.rsp, c.ss]) ∧
    (∀ (function kstack_addr ustack_addr : Nat) (g : Context) (tid : Nat),
      ∃ cpu : CPUState,
        stubRestore
            (Context.words (new_kernel_thread function kstack_addr ustack_addr g tid).ctx)
          = some cpu ∧
        cpu.rip = function ∧
        cpu.rsp = ustack_addr + USER_STACK_SIZE ∧
        cpu.rflags = 0x200 ∧
        cpu.cs = get_kernel_segments.1 ∧
        cpu.ss = get_kernel_segments.2 ∧
        (∀ r : GPReg,
          cpu.gp r = (new_kernel_thread function kstack_addr ustack_addr g tid).ctx.gpField r)) := by
  refine ⟨rfl, fun c => rfl, ?_⟩
  intro function kstack_addr ustack_addr g tid
  refine ⟨_, rfl, rfl, rfl, rfl, rfl, rfl, ?_⟩
  intro r
  cases r <;> rfl

/-- C5 counterexample: `new_kernel_thread` writes the *user* stack top
into the saved stack pointer, not the kernel stack top (process.rs line
206: `context.rsp = new_thread.user_stack_end`). -/
theorem new_kernel_thread_rsp_is_not_kernel_stack_top :
    (new_kernel_thread 0x1234 0x1000 0x10000 ctxZero 0).ctx.rsp ≠
      (new_kernel_thread 0x1234 0x1000 0x10000 ctxZero 0).thread.kernel_stack_end := by
  decide

/-- C5 (amended): the initial context written by `new_kernel_thread` has
instruction pointer = the entry function, stack pointer = the top of the
allocated *user* stack (the kernel stack top goes to the TSS, not to
rsp), flags 0x200 (interrupts enabled), code/stack selectors = the kernel
segment pair, and the new thread is enqueued at the back of the Ready
Queue. -/
theorem new_kernel_thread_initial_context
    (function kstack_addr ustack_addr : Nat) (g : Context) (s : KernelState) :
    (new_kernel_thread function kstack_addr ustack_addr g s.next_tid).ctx.rip
        = function ∧
    (new_kernel_thread function kstack_addr ustack_addr g s.next_tid).ctx.rsp
        = (new_kernel_thread function kstack_addr ustack_addr g s.next_tid).thread.user_stack_end ∧
    (new_kernel_thread function kstack_addr ustack_addr g s.next_tid).ctx.rflags
        = 0x200 ∧
    (new_kernel_thread function kstack_addr ustack_addr g s.next_tid).ctx.cs
        = get_kernel_segments.1 ∧
    (new_kernel_thread function kstack_addr ustack_addr g s.next_tid).ctx.ss
        = get_kernel_segments.2 ∧
    (step s (.createKernel function kstack_addr ustack_addr g)).sched.running_queue
        = s.sched.running_queue ++
            [(new_kernel_thread function kstack_addr ustack_addr g s.next_tid).thread] :=
  ⟨rfl, rfl, rfl, rfl, rfl, rfl⟩

/-- C10: the ELF magic check slices `bin[0..4]` with no length guard, so
any buffer shorter than 4 bytes panics (modelled as `none`) instead of
returning the "Expected ELF binary" error; with at least 4 bytes the
check is total and a wrong magic yields exactly that error with no side
effects. -/
theorem magic_check_panics_on_short_input (bin : List Nat)
    (parsed : Option ElfFile) (st : MemState) (kstack_addr ustack_addr : Nat)
    (g : Context) (tid : Nat) :
    (bin.length < 4 →
      new_user_thread bin parsed st kstack_addr ustack_addr g tid = none) ∧
    (4 ≤ bin.length → bin.take 4 ≠ ELF_MAGIC →
      new_user_thread bin parsed st kstack_addr ustack_addr g tid =
        some { result := .error "Expected ELF binary", mem := st,
               enqueued := none }) := by
  constructor
  · intro h
    simp [new_user_thread, h]
  · intro h hm
    simp [new_user_thread, Nat.not_lt.mpr h, hm]

/-- Witness for C10: a 1-byte buffer panics; a 4-byte non-ELF buffer is
rejected with the header error. -/
theorem magic_check_panics_on_short_input_witness :
    new_user_thread [0x7f] none ⟨[], 0, []⟩ 0 0 ctxZero 0 = none ∧
    new_user_thread [0x42, 0x41, 0x44, 0x21] none ⟨[], 0, []⟩ 0 0 ctxZero 0 =
      some { result := .error "Expected ELF binary", mem := ⟨[], 0, []⟩,
             enqueued := none } :=
  ⟨(magic_check_panics_on_short_input [0x7f] none ⟨[], 0, []⟩ 0 0 ctxZero 0).1
      (by decide),
   (magic_check_panics_on_short_input [0x42, 0x41, 0x44, 0x21] none ⟨[], 0, []⟩
      0 0 ctxZero 0).2 (by decide) (by decide)⟩

/-- C6: the failing input.  A well-formed single-segment ELF is loaded
with a frame allocator holding exactly one usable frame: the segment's
page consumes it, so mapping the user stack at `USER_STACK_START` fails
with `FrameAllocationFailed` — yet `new_user_thread` still returns
`Ok(entry_point)`, because the source discards the `Result` of the
user-stack `allocate_pages_mapper` call (process.rs lines 161-168).  The
outcome's memory state shows the user-stack page unmapped. -/
theorem user_stack_map_failure_still_returns_ok :
    ∃ out : UserThreadOutcome,
      new_user_thread [0x7f, 0x45, 0x4c, 0x46]
          (some { entry := 0x5000000,
                  segments := [{ address := 0x5000000, size := 0x1000 }] })
          { usable := [0], next := 0, mapped := [] } 0x1000 0x2000 ctxZero 0
        = some out ∧
      out.result = .ok 0x5000000 ∧
      ¬ pageContaining USER_STACK_START ∈ out.mem.mapped.map Prod.fst := by
  refine ⟨_, rfl, rfl, by decide⟩

/-- Invariant of `runScancodes` over an initialized queue: with no
consumer, the queue ends up holding the first `SCANCODE_CAPACITY` bytes
of `prefix ++ input` and one dropped-input warning is emitted per byte
that arrived while the queue was full. -/
theorem runScancodes_full_behavior (bs : List Nat) (q : List Nat)
    (w uw wk : Nat) (hq : q.length ≤ SCANCODE_CAPACITY) :
    (runScancodes bs
        { queue := some q, dropped_warnings := w, uninit_warnings := uw,
          wakes := wk }).queue = some ((q ++ bs).take SCANCODE_CAPACITY) ∧
    (runScancodes bs
        { queue := some q, dropped_warnings := w, uninit_warnings := uw,
          wakes := wk }).dropped_warnings
      = w + (q.length + bs.length - SCANCODE_CAPACITY) := by
  induction bs generalizing q w wk with
  | nil =>
      simp only [runScancodes, List.foldl_nil, List.append_nil, List.length_nil]
      refine ⟨by rw [List.take_of_length_le hq], ?_⟩
      have h0 : q.length + 0 - SCANCODE_CAPACITY = 0 :=
        Nat.sub_eq_zero_of_le (by omega)
      rw [h0]
      simp
  | cons b rest ih =>
      have hstep : ∀ s : KbdState,
          runScancodes (b :: rest) s = runScancodes rest (add_scancode b s) :=
        fun _ => rfl
      by_cases hfull : SCANCODE_CAPACITY ≤ q.length
      · have hq100 : q.length = SCANCODE_CAPACITY := Nat.le_antisymm hq hfull
        have hadd : add_scancode b
            { queue := some q, dropped_warnings := w, uninit_warnings := uw,
              wakes := wk }
            = { queue := some q, dropped_warnings := w + 1,
                uninit_warnings := uw, wakes := wk } := by
          simp [add_scancode, hfull]
        rw [hstep, hadd]
        obtain ⟨ih1, ih2⟩ := ih q (w + 1) wk hq
        refine ⟨?_, ?_⟩
        · rw [ih1]
          congr 1
          simp only [List.take_append_eq_append_take, hq100, Nat.sub_self,
            List.take_zero, List.append_nil]
        · rw [ih2]
          have h1 : q.length + rest.length - SCANCODE_CAPACITY = rest.length := by
            rw [hq100]; omega
          have h2 : q.length + (b :: rest).length - SCANCODE_CAPACITY
              = rest.length + 1 := by
            rw [hq100]; simp [Nat.add_comm]
          rw [h1, h2]
          omega
      · have hadd : add_scancode b
            { queue := some q, dropped_warnings := w, uninit_warnings := uw,
              wakes := wk }
            = { queue := some (q ++ [b]), dropped_warnings := w,
                uninit_warnings := uw, wakes := wk + 1 } := by
          simp [add_scancode, hfull]
        rw [hstep, hadd]
        obtain ⟨ih1, ih2⟩ := ih (q ++ [b]) w (wk + 1)
          (by simp; omega)
        refine ⟨?_, ?_⟩
        · rw [ih1]
          simp
        · rw [ih2]
          have hlen : (q ++ [b]).length + rest.length
              = q.length + (b :: rest).length := by
            simp [List.length_append]
            omega
          rw [hlen]

/-- C9: with queue capacity 100, an initialized empty queue, and no
consumer, 101 successive `add_scancode` calls leave the queue holding
exactly the first 100 bytes in order, drop the 101st byte, and emit
exactly one dropped-input warning. -/
theorem scancode_queue_overflow (bs : List Nat) (h : bs.length = 101) :
    (runScancodes bs kbdInit).queue = some (bs.take 100) ∧
    (runScancodes bs kbdInit).dropped_warnings = 1 := by
  have hspec := runScancodes_full_behavior bs [] 0 0 0 (by simp)
  simp only [List.nil_append, List.length_nil, Nat.zero_add, h] at hspec
  exact ⟨hspec.1, hspec.2⟩

/-- Witness for C9 on the concrete byte sequence 0, 1, ..., 100. -/
theorem scancode_queue_overflow_witness :
    (runScancodes (List.range 101) kbdInit).queue =
        some ((List.range 101).take 100) ∧
    (runScancodes (List.range 101) kbdInit).dropped_warnings = 1 :=
  scancode_queue_overflow (List.range 101) (by simp)

/-- Unfolding of `new_user_thread` past a valid magic check and a
successful parse when `mapSegments` fails: the error and the
partially-updated memory state are returned, nothing is enqueued. -/
theorem new_user_thread_map_error (bin : List Nat) (obj : ElfFile)
    (st : MemState) (kstack_addr ustack_addr : Nat) (g : Context) (tid : Nat)
    (e : String) (st' : MemState)
    (hlen : 4 ≤ bin.length) (hmagic : bin.take 4 = ELF_MAGIC)
    (hmap : mapSegments obj.segments st = (.error e, st')) :
    new_user_thread bin (some obj) st kstack_addr ustack_addr g tid =
      some { result := .error e, mem := st', enqueued := none } := by
  unfold new_user_thread
  rw [if_neg (Nat.not_lt.mpr hlen), if_neg (by simp [hmagic])]
  dsimp only
  rw [hmap]

/-- Unfolding of `new_user_thread` past a valid magic check, a
successful parse and successful segment mapping: the entry point is
returned, the user-stack mapping runs with its result discarded, and the
new thread is enqueued. -/
theorem new_user_thread_map_ok (bin : List Nat) (obj : ElfFile)
    (st : MemState) (kstack_addr ustack_addr : Nat) (g : Context) (tid : Nat)
    (st' : MemState)
    (hlen : 4 ≤ bin.length) (hmagic : bin.take 4 = ELF_MAGIC)
    (hmap : mapSegments obj.segments st = (.ok (), st')) :
    new_user_thread bin (some obj) st kstack_addr ustack_addr g tid =
      some { result := .ok obj.entry,
             mem := (allocate_pages_mapper st' USER_STACK_START USER_STACK_SIZE).2,
             enqueued := some
               ({ tid := tid,
                  kernel_stack_end := kstack_addr + KERNEL_STACK_SIZE,
                  user_stack_end := ustack_addr + USER_STACK_SIZE,
                  context := kstack_addr + KERNEL_STACK_SIZE - INTERRUPT_CONTEXT_SIZE },
                { g with
                  rip := obj.entry,
                  rsp := USER_STACK_START + USER_STACK_SIZE,
                  rflags := 0x200,
                  cs := get_user_segments.1,
                  ss := get_user_segments.2 }) } := by
  unfold new_user_thread
  rw [if_neg (Nat.not_lt.mpr hlen), if_neg (by simp [hmagic])]
  dsimp only
  rw [hmap]

/-- Lemma: `allocate_pages_loop` succeeds when enough usable frames remain and
none of the pages it will touch is already mapped. -/
theorem allocate_pages_loop_ok (n : Nat) : ∀ (page : Nat) (st : MemState),
    st.next + n ≤ st.usable.length →
    (∀ i, i < n → ¬ (page + i) ∈ st.mapped.map Prod.fst) →
    ∃ st', allocate_pages_loop n page st = (.ok (), st') := by
  induction n with
  | zero =>
      intro page st _ _
      exact ⟨st, rfl⟩
  | succ m ih =>
      intro page st hframes hfresh
      have hlt : st.next < st.usable.length := by omega
      have hf : st.usable[st.next]? = some st.usable[st.next] :=
        List.getElem?_eq_getElem hlt
      have h0 : ¬ page ∈ st.mapped.map Prod.fst := by
        simpa using hfresh 0 (Nat.succ_pos m)
      obtain ⟨st', hrun⟩ := ih (page + 1)
        { usable := st.usable, next := st.next + 1,
          mapped := st.mapped ++ [(page, st.usable[st.next])] }
        (by simp; omega)
        (by
          intro i hi
          have h1 := hfresh (i + 1) (by omega)
          have h2 : page + 1 + i = page + (i + 1) := by omega
          simp only [List.map_append, List.mem_append]
          push_neg
          refine ⟨by rw [h2]; exact h1, ?_⟩
          simp
          omega)
      exact ⟨st', by
        simp [allocate_pages_loop, allocate_frame, map_to, hf, h0, hrun]⟩

/-- C4 counterexample: an ELF image whose single loadable segment ends
exactly at `USER_CODE_END` (address 0x7FFFF000, size 0x1000, end
0x80000000) is *rejected*, not accepted: the source's range check uses
`end_address >= USER_CODE_END` (process.rs line 111), so the exact
boundary already fails. -/
theorem elf_segment_ending_at_bound_rejected :
    new_user_thread [0x7f, 0x45, 0x4c, 0x46]
        (some { entry := 0x5000000,
                segments := [{ address := 0x7FFFF000, size := 0x1000 }] })
        { usable := [], next := 0, mapped := [] } 0x1000 0x2000 ctxZero 0
      = some { result := .error "ELF segment outside allowed range",
               mem := { usable := [], next := 0, mapped := [] },
               enqueued := none } := by
  rfl

/-- C4 (amended): the user-code window's upper bound is exclusive of the
segment end: a loadable segment whose end address (`address + size`) is
at least `USER_CODE_END` — including ending exactly at the bound — is
rejected with the segment-out-of-range error, while a segment lying in
the window with end address one byte below the bound passes the range
check and the image is accepted (for a frame allocator with enough
usable frames and an empty address space). -/
theorem elf_user_code_window_upper_boundary :
    (∀ (entry : Nat) (seg : Segment) (st : MemState)
       (kstack_addr ustack_addr : Nat) (g : Context) (tid : Nat),
      USER_CODE_END ≤ seg.address + seg.size →
      new_user_thread [0x7f, 0x45, 0x4c, 0x46] (some ⟨entry, [seg]⟩)
          st kstack_addr ustack_addr g tid
        = some { result := .error "ELF segment outside allowed range",
                 mem := st, enqueued := none }) ∧
    (∀ (entry : Nat) (seg : Segment)
       (kstack_addr ustack_addr : Nat) (g : Context) (tid : Nat),
      USER_CODE_START ≤ seg.address →
      seg.address + seg.size + 1 = USER_CODE_END →
      ∃ (st : MemState) (out : UserThreadOutcome),
        new_user_thread [0x7f, 0x45, 0x4c, 0x46] (some ⟨entry, [seg]⟩)
            st kstack_addr ustack_addr g tid = some out ∧
        out.result = .ok entry) := by
  constructor
  · intro entry seg st kstack_addr ustack_addr g tid h
    have hmap : mapSegments [seg] st
        = (.error "ELF segment outside allowed range", st) := by
      simp only [mapSegments]
      rw [if_pos (Or.inr h)]
    exact new_user_thread_map_error _ ⟨entry, [seg]⟩ st kstack_addr ustack_addr
      g tid _ _ (by decide) rfl hmap
  · intro entry seg kstack_addr ustack_addr g tid h1 h2
    -- a memory state with exactly as many usable frames as the segment
    -- needs, none of its pages mapped yet
    obtain ⟨st', hloop⟩ := allocate_pages_loop_ok
      (pageContaining (seg.address + seg.size - 1) + 1
        - pageContaining seg.address)
      (pageContaining seg.address)
      { usable := List.replicate
          (pageContaining (seg.address + seg.size - 1) + 1
            - pageContaining seg.address) 0,
        next := 0, mapped := [] }
      (by simp)
      (by intro i _; simp)
    have hmap : mapSegments [seg]
        { usable := List.replicate
            (pageContaining (seg.address + seg.size - 1) + 1
              - pageContaining seg.address) 0,
          next := 0, mapped := [] } = (.ok (), st') := by
      simp only [mapSegments]
      rw [if_neg (by push_neg; omega)]
      unfold allocate_pages_mapper
      rw [hloop]
    refine ⟨_, _, new_user_thread_map_ok _ ⟨entry, [seg]⟩ _ kstack_addr
      ustack_addr g tid st' (by decide) rfl hmap, rfl⟩

/-- Witness for C4 (amended): a segment ending exactly at the bound
(0x7FFFF000 + 0x1000 = 0x80000000) is rejected; a segment with end one
byte lower (0x7FFFF000 + 0xFFF) is accepted. -/
theorem elf_user_code_window_upper_boundary_witness :
    (new_user_thread [0x7f, 0x45, 0x4c, 0x46]
        (some ⟨0x1234, [⟨0x7FFFF000, 0x1000⟩]⟩)
        { usable := [], next := 0, mapped := [] } 0x1000 0x2000 ctxZero 0
      = some { result := .error "ELF segment outside allowed range",
               mem := { usable := [], next := 0, mapped := [] },
               enqueued := none }) ∧
    (∃ (st : MemState) (out : UserThreadOutcome),
      new_user_thread [0x7f, 0x45, 0x4c, 0x46]
          (some ⟨0x1234, [⟨0x7FFFF000, 0xFFF⟩]⟩)
          st 0x1000 0x2000 ctxZero 0 = some out ∧
      out.result = .ok 0x1234) :=
  ⟨elf_user_code_window_upper_boundary.1 0x1234 ⟨0x7FFFF000, 0x1000⟩
      { usable := [], next := 0, mapped := [] } 0x1000 0x2000 ctxZero 0
      (by decide),
   elf_user_code_window_upper_boundary.2 0x1234 ⟨0x7FFFF000, 0xFFF⟩
      0x1000 0x2000 ctxZero 0 (by decide) (by decide)⟩

/-- C8: an ELF image whose single loadable segment starts below the
window's lower bound is rejected with the segment-out-of-range error
before any page is mapped: the returned memory state is exactly the
input state, so the frame-allocator cursor has not moved (no frame
consumed) and the mapping set is unchanged. -/
theorem elf_reject_below_window_no_side_effects
    (bin : List Nat) (entry : Nat) (seg : Segment) (st : MemState)
    (kstack_addr ustack_addr : Nat) (g : Context) (tid : Nat)
    (hlen : 4 ≤ bin.length) (hmagic : bin.take 4 = ELF_MAGIC)
    (hseg : seg.address < USER_CODE_START) :
    new_user_thread bin (some ⟨entry, [seg]⟩) st kstack_addr ustack_addr g tid
      = some { result := .error "ELF segment outside allowed range",
               mem := st, enqueued := none } := by
  have hmap : mapSegments [seg] st
      = (.error "ELF segment outside allowed range", st) := by
    simp only [mapSegments]
    rw [if_pos (Or.inl hseg)]
  exact new_user_thread_map_error bin ⟨entry, [seg]⟩ st kstack_addr
    ustack_addr g tid _ _ hlen hmagic hmap

/-- Witness for C8: a segment one page below the window
(0x4FFF000 = USER_CODE_START − 0x1000) is rejected and the memory state
— two usable frames, cursor 0, no mappings — comes back untouched. -/
theorem elf_reject_below_window_no_side_effects_witness :
    new_user_thread [0x7f, 0x45, 0x4c, 0x46]
        (some ⟨0x5000000, [⟨0x4FFF000, 0x1000⟩]⟩)
        { usable := [0, 4096], next := 0, mapped := [] } 0x1000 0x2000 ctxZero 0
      = some { result := .error "ELF segment outside allowed range",
               mem := { usable := [0, 4096], next := 0, mapped := [] },
               enqueued := none } :=
  elf_reject_below_window_no_side_effects [0x7f, 0x45, 0x4c, 0x46] 0x5000000
    ⟨0x4FFF000, 0x1000⟩ { usable := [0, 4096], next := 0, mapped := [] }
    0x1000 0x2000 ctxZero 0 (by decide) rfl (by decide)

/-- Whenever `new_user_thread` enqueues a thread, that thread carries the
ghost creation index it was called with. -/
theorem new_user_thread_enqueued_tid (bin : List Nat) (parsed : Option ElfFile)
    (st : MemState) (kstack_addr ustack_addr : Nat) (g : Context) (tid : Nat)
    (out : UserThreadOutcome) (t : Thread) (c : Context)
    (hout : new_user_thread bin parsed st kstack_addr ustack_addr g tid = some out)
    (henq : out.enqueued = some (t, c)) : t.tid = tid := by
  unfold new_user_thread at hout
  split at hout
  · cases hout
  · split at hout
    · simp only [Option.some.injEq] at hout
      subst hout
      simp at henq
    · split at hout
      · simp only [Option.some.injEq] at hout
        subst hout
        simp at henq
      · split at hout
        · simp only [Option.some.injEq] at hout
          subst hout
          simp at henq
        · simp only [Option.some.injEq] at hout
          subst hout
          simp only [Option.some.injEq, Prod.mk.injEq] at henq
          rw [← henq.1]

/-- One `step` preserves the ownership bookkeeping: each live tid is
placed exactly once across Ready Queue and Current-Thread slot. -/
theorem step_preserves_placed (s : KernelState) (op : Op)
    (h : ∀ n, (placedTids s).count n = if n < s.next_tid then 1 else 0)
    (n : Nat) :
    (placedTids (step s op)).count n
      = if n < (step s op).next_tid then 1 else 0 := by
  cases op with
  | createKernel f k u g =>
      have hn := h n
      simp only [step, placedTids, new_kernel_thread, List.map_append,
        List.count_append, List.map_cons, List.map_nil, List.count_cons,
        List.count_nil, beq_iff_eq] at hn ⊢
      split_ifs at hn ⊢ <;> omega
  | createUser bin parsed k u g =>
      cases hout : new_user_thread bin parsed s.mem k u g s.next_tid with
      | none =>
          simpa [step, hout, placedTids] using h n
      | some out =>
          cases henq : out.enqueued with
          | none =>
              simpa [step, hout, henq, placedTids] using h n
          | some tc =>
              obtain ⟨t, c⟩ := tc
              have htid : t.tid = s.next_tid :=
                new_user_thread_enqueued_tid bin parsed s.mem k u g s.next_tid
                  out t c hout henq
              have hn := h n
              simp only [step, hout, henq, placedTids, List.map_append,
                List.count_append, List.map_cons, List.map_nil,
                List.count_cons, List.count_nil, beq_iff_eq, htid] at hn ⊢
              split_ifs at hn ⊢ <;> omega
  | timer addr =>
      have hn := h n
      cases hc : s.sched.current_thread with
      | none =>
          cases hq : s.sched.running_queue with
          | nil =>
              simpa [step, schedule_next, placedTids, hc, hq] using hn
          | cons hd tl =>
              simp only [step, schedule_next, placedTids, hc, hq,
                List.map_append, List.count_append, List.map_cons,
                List.map_nil, List.count_cons, List.count_nil,
                Option.map_some, Option.map_none, Option.map_some',
                Option.map_none', Option.toList_some, Option.toList_none,
                beq_iff_eq] at hn ⊢
              split_ifs at hn ⊢ <;> omega
      | some cur =>
          cases hq : s.sched.running_queue with
          | nil =>
              simp only [step, schedule_next, placedTids, hc, hq,
                List.nil_append, List.map_append, List.count_append,
                List.map_cons, List.map_nil, List.count_cons, List.count_nil,
                Option.map_some, Option.map_none, Option.map_some',
                Option.map_none', Option.toList_some, Option.toList_none,
                beq_iff_eq] at hn ⊢
              split_ifs at hn ⊢ <;> omega
          | cons hd tl =>
              simp only [step, schedule_next, placedTids, hc, hq,
                List.cons_append, List.map_append, List.count_append,
                List.map_cons, List.map_nil, List.count_cons, List.count_nil,
                Option.map_some, Option.map_none, Option.map_some',
                Option.map_none', Option.toList_some, Option.toList_none,
                beq_iff_eq] at hn ⊢
              split_ifs at hn ⊢ <;> omega

/-- The ownership bookkeeping holds after any operation sequence from a
state where it holds. -/
theorem run_preserves_placed (ops : List Op) : ∀ (s : KernelState),
    (∀ n, (placedTids s).count n = if n < s.next_tid then 1 else 0) →
    ∀ n, (placedTids (run ops s)).count n
      = if n < (run ops s).next_tid then 1 else 0 := by
  induction ops with
  | nil => intro s h n; exact h n
  | cons op rest ih =>
      intro s h n
      exact ih (step s op) (fun m => step_preserves_placed s op h m) n

/-- C3: scheduler ownership invariant.  Under every interleaving of
`new_kernel_thread`, `new_user_thread` and timer-driven `schedule_next`
calls from boot, every live thread (every creation index below the ghost
counter) is placed exactly once across Ready Queue ∪ Current-Thread
slot — never in both, never in neither, and never twice — while no dead
tid is placed at all.  The Current-Thread slot holds at most one thread
by construction (it is an `Option`). -/
theorem scheduler_ownership_invariant (ops : List Op) (mem : MemState)
    (n : Nat) :
    (placedTids (run ops (initState mem))).count n
      = if n < (run ops (initState mem)).next_tid then 1 else 0 :=
  run_preserves_placed ops (initState mem)
    (fun k => by simp [placedTids, initState]) n

end AuroraOS
